import Mathlib

/-!
Shallow embedding of the HexaField/agent-workflow repository: the CLI process
runner `defaultRunCliArgs`, the opencode provider helpers
(`extractResponseText`, `createAgentViaMarkdown`, `createAgentViaConfig` and
the module-level server/client cache), the fluent `RoundBuilder`, the
`zodToWorkflowParserJsonSchema` converter, and a spec-modelled input
validation step of the run harness.
-/

namespace AgentWorkflow

/-!
Byte-level helper: UTF-8 bytes of a string, as natural numbers.  Models
the encoding Node applies to a JS string written to a stream.
-/

def utf8Bytes (s : String) : List Nat :=
  s.toUTF8.data.toList.map (fun b => b.toNat)

/-!
CLI runtime model, from `defaultRunCliArgs` in src/unnamed/part_001
(lines 141-194).  The child process is abstracted as the data the runner
observes: whether stdin exists, the chunks emitted on stdout/stderr, and
whether the child fires `error` or `close` (with a possibly-null code).
`Buffer.prototype.toString` is an external primitive and is passed in as
the `decode` parameter.
-/

inductive StdinValue where
  | str (s : String)
  | bytes (b : List Nat)
  | other (asString : String)
deriving DecidableEq, Repr

inductive Capture where
  | text
  | buffer
  | both
deriving DecidableEq, Repr

structure CliRuntimeInvocation where
  command : String
  args : Option (List (String × String))
  cwd : String
  stdinValue : Option StdinValue
  capture : Option Capture

inductive SpawnOutcome where
  | errorEvent (message : String)
  | close (code : Option Int)
deriving DecidableEq, Repr

structure ChildBehavior where
  hasStdin : Bool
  stdoutChunks : List (List Nat)
  stderrChunks : List (List Nat)
  outcome : SpawnOutcome

structure CliRuntimeResult where
  stdout : String
  stderr : String
  stdoutBuffer : Option (List Nat)
  stderrBuffer : Option (List Nat)
  exitCode : Int
deriving DecidableEq, Repr

inductive StdinOp where
  | write (bytes : List Nat)
  | close
deriving DecidableEq, Repr

def lookupArgString (args : List (String × String)) (key : String) : String :=
  match args.lookup key with
  | some v => v
  | none => "undefined"

/--
argv construction: `Object.keys(input.args ?? {}).sort().map((key) =>
String(input.args?.[key]))`.  JS `Array.prototype.sort` orders the keys
lexicographically by UTF-16 code units; this is modelled with the
lexicographic order on Lean strings, which agrees with it on all keys whose
characters lie in the Basic Multilingual Plane.  Values are already strings
in `argsObject`, so `String(v)` is the identity on present keys.
-/
def argvOf (args : Option (List (String × String))) : List String :=
  let l := args.getD []
  (List.insertionSort (· ≤ ·) (l.map Prod.fst)).map (lookupArgString l)

/-- Bytes handed to `child.stdin.end`: a string is UTF-8 encoded, a
`Uint8Array` is wrapped by `Buffer.from` (same bytes), anything else is
stringified first. -/
def stdinPayload : StdinValue → List Nat
  | .str s => utf8Bytes s
  | .bytes b => b
  | .other r => utf8Bytes r

/-- The stdin operations performed by `defaultRunCliArgs`: a single
`end(payload)` call, i.e. one write followed by close, when `stdinValue`
is defined and the child has a stdin stream. -/
def stdinOpsOf (inv : CliRuntimeInvocation) (child : ChildBehavior) : List StdinOp :=
  match inv.stdinValue with
  | some v => if child.hasStdin then [.write (stdinPayload v), .close] else []
  | none => []

structure CliRunTrace where
  spawnedArgv : List String
  stdinOps : List StdinOp
  result : Except String CliRuntimeResult

/-- Model of `defaultRunCliArgs`: capture flags, per-chunk text accumulation,
buffer concatenation at close, string fields backfilled from the buffers when
text was not captured, exit code defaulting to -1 when the close code is
null, and rejection exactly on the `error` event. -/
def defaultRunCliArgs (decode : List Nat → String) (inv : CliRuntimeInvocation)
    (child : ChildBehavior) : CliRunTrace :=
  let captureBuffer : Bool := inv.capture == some .buffer || inv.capture == some .both
  let captureText : Bool := inv.capture == some .text || inv.capture == some .both
  let liveOut := if captureText then String.join (child.stdoutChunks.map decode) else ""
  let liveErr := if captureText then String.join (child.stderrChunks.map decode) else ""
  let res : Except String CliRuntimeResult :=
    match child.outcome with
    | .errorEvent msg => .error msg
    | .close code =>
      let stdoutBuffer := if captureBuffer then some child.stdoutChunks.flatten else none
      let stderrBuffer := if captureBuffer then some child.stderrChunks.flatten else none
      let stdoutText :=
        if !captureText then
          match stdoutBuffer with
          | some b => decode b
          | none => liveOut
        else liveOut
      let stderrText :=
        if !captureText then
          match stderrBuffer with
          | some b => decode b
          | none => liveErr
        else liveErr
      .ok { stdout := stdoutText, stderr := stderrText,
            stdoutBuffer := stdoutBuffer, stderrBuffer := stderrBuffer,
            exitCode := code.getD (-1) }
  { spawnedArgv := argvOf inv.args
    stdinOps := stdinOpsOf inv child
    result := res }

/-- C1: for every CLI invocation whose process spawns and closes,
`defaultRunCliArgs` resolves with the close code in `exitCode` (-1 when the
close code is null) rather than rejecting, non-zero codes included; it
rejects exactly when the child emits an `error` event. -/
theorem defaultRunCliArgs_exit_resolution (decode : List Nat → String)
    (inv : CliRuntimeInvocation) (child : ChildBehavior) :
    (∀ code : Option Int, child.outcome = .close code →
      ∃ r, (defaultRunCliArgs decode inv child).result = .ok r ∧
        r.exitCode = code.getD (-1)) ∧
    (∀ msg : String, (defaultRunCliArgs decode inv child).result = .error msg ↔
      child.outcome = .errorEvent msg) := by
  constructor
  · intro code h
    simp only [defaultRunCliArgs, h]
    exact ⟨_, rfl, rfl⟩
  · intro msg
    cases hc : child.outcome <;> simp [defaultRunCliArgs, hc]

def witnessDecode : List Nat → String := fun _ => ""

def witnessInv : CliRuntimeInvocation :=
  { command := "printf", args := some [("arg0", "%s")], cwd := "/tmp",
    stdinValue := none, capture := some .both }

def childClosing2 : ChildBehavior :=
  { hasStdin := true, stdoutChunks := [[48]], stderrChunks := [],
    outcome := .close (some 2) }

def childSpawnFailing : ChildBehavior :=
  { hasStdin := true, stdoutChunks := [], stderrChunks := [],
    outcome := .errorEvent "spawn printf ENOENT" }

theorem defaultRunCliArgs_exit_resolution_witness :
    (∃ r, (defaultRunCliArgs witnessDecode witnessInv childClosing2).result = .ok r ∧
      r.exitCode = 2) ∧
    (defaultRunCliArgs witnessDecode witnessInv childSpawnFailing).result =
      .error "spawn printf ENOENT" := by
  constructor
  · simpa using
      (defaultRunCliArgs_exit_resolution witnessDecode witnessInv childClosing2).1
        (some 2) rfl
  · exact ((defaultRunCliArgs_exit_resolution witnessDecode witnessInv
      childSpawnFailing).2 "spawn printf ENOENT").mpr rfl

/-- C2: the bytes written to the child stdin equal the `Uint8Array` buffer
bit-for-bit; a string `stdinValue` is written as its UTF-8 encoding; stdin is
closed by the single `end` call right after that one write. -/
theorem defaultRunCliArgs_stdin_ops (decode : List Nat → String)
    (inv : CliRuntimeInvocation) (child : ChildBehavior)
    (h : child.hasStdin = true) :
    (∀ b : List Nat, inv.stdinValue = some (.bytes b) →
      (defaultRunCliArgs decode inv child).stdinOps = [.write b, .close]) ∧
    (∀ s : String, inv.stdinValue = some (.str s) →
      (defaultRunCliArgs decode inv child).stdinOps =
        [.write (utf8Bytes s), .close]) := by
  constructor
  · intro b hb
    simp [defaultRunCliArgs, stdinOpsOf, hb, h, stdinPayload]
  · intro s hs
    simp [defaultRunCliArgs, stdinOpsOf, hs, h, stdinPayload]

def bytesInv : CliRuntimeInvocation :=
  { command := "tee", args := some [("arg0", "cli-output.txt")], cwd := "/tmp",
    stdinValue := some (.bytes [0, 1, 2, 3, 4]), capture := some .both }

theorem defaultRunCliArgs_stdin_ops_witness :
    (defaultRunCliArgs witnessDecode bytesInv childClosing2).stdinOps =
      [.write [0, 1, 2, 3, 4], .close] :=
  (defaultRunCliArgs_stdin_ops witnessDecode bytesInv childClosing2 rfl).1
    [0, 1, 2, 3, 4] rfl

/-- With pairwise-distinct keys, `List.lookup` is insensitive to the order of
the association list (JS objects have unique keys). -/
theorem lookup_eq_of_perm {α β : Type} [DecidableEq α] {l₁ l₂ : List (α × β)}
    (hp : l₁.Perm l₂) :
    ∀ (_ : (l₁.map Prod.fst).Nodup) (k : α), l₁.lookup k = l₂.lookup k := by
  induction hp with
  | nil => intro _ _; rfl
  | cons x hp ih =>
    intro hn k
    rw [List.map_cons, List.nodup_cons] at hn
    cases hkx : k == x.1 <;> simp [List.lookup, hkx, ih hn.2 k]
  | swap x y l =>
    intro hn k
    obtain ⟨kx, vx⟩ := x
    obtain ⟨ky, vy⟩ := y
    by_cases hky : k = (ky, vy).1 <;> by_cases hkx : k = (kx, vx).1
    · exfalso
      rw [List.map_cons, List.map_cons, List.nodup_cons] at hn
      exact hn.1 ((hky.symm.trans hkx) ▸ List.mem_cons_self _ _)
    · subst hky
      have h1 : (k == kx) = false := beq_false_of_ne hkx
      simp [List.lookup_cons, h1]
    · subst hkx
      have h1 : (k == ky) = false := beq_false_of_ne hky
      simp [List.lookup_cons, h1]
    · have h1 : (k == ky) = false := beq_false_of_ne hky
      have h2 : (k == kx) = false := beq_false_of_ne hkx
      simp [List.lookup_cons, h1, h2]
  | trans hp₁ hp₂ ih₁ ih₂ =>
    intro hn k
    have hn₂ : _ := ((hp₁.map Prod.fst).nodup_iff).mp hn
    rw [ih₁ hn k, ih₂ hn₂ k]

/-- C5: for every CLI step declared with `argsObject`, the argv handed to
`spawn` is the list of argument values ordered lexicographically by key
(`Object.keys(args).sort()`), independent of the insertion order of the keys
in the document. -/
theorem argv_lexicographic_by_key (l₁ l₂ : List (String × String))
    (hn : (l₁.map Prod.fst).Nodup) (hp : l₁.Perm l₂) :
    argvOf (some l₁) = argvOf (some l₂) ∧
    (∃ ks : List String, ks.Sorted (· ≤ ·) ∧ ks.Perm (l₁.map Prod.fst) ∧
      argvOf (some l₁) = ks.map (lookupArgString l₁)) ∧
    (∀ (decode : List Nat → String) (inv : CliRuntimeInvocation)
      (child : ChildBehavior), inv.args = some l₁ →
      (defaultRunCliArgs decode inv child).spawnedArgv = argvOf (some l₁)) := by
  have hkeys : (l₁.map Prod.fst).Perm (l₂.map Prod.fst) := hp.map Prod.fst
  have hsorted₁ := List.sorted_insertionSort (· ≤ ·) (l₁.map Prod.fst)
  have hsorted₂ := List.sorted_insertionSort (· ≤ ·) (l₂.map Prod.fst)
  have hperm₁ := List.perm_insertionSort (· ≤ ·) (l₁.map Prod.fst)
  have hperm₂ := List.perm_insertionSort (· ≤ ·) (l₂.map Prod.fst)
  have hsame : List.insertionSort (· ≤ ·) (l₁.map Prod.fst) =
      List.insertionSort (· ≤ ·) (l₂.map Prod.fst) :=
    List.eq_of_perm_of_sorted ((hperm₁.trans hkeys).trans hperm₂.symm)
      hsorted₁ hsorted₂
  refine ⟨?_, ⟨_, hsorted₁, hperm₁, rfl⟩, ?_⟩
  · show (List.insertionSort (· ≤ ·) (l₁.map Prod.fst)).map (lookupArgString l₁) =
      (List.insertionSort (· ≤ ·) (l₂.map Prod.fst)).map (lookupArgString l₂)
    rw [← hsame]
    refine List.map_congr_left fun k _ => ?_
    unfold lookupArgString
    rw [lookup_eq_of_perm hp hn k]
  · intro decode inv child ha
    simp [defaultRunCliArgs, ha]

theorem argv_lexicographic_by_key_witness :
    argvOf (some [("flag", "-a"), ("file", "cli-output.txt")]) =
      argvOf (some [("file", "cli-output.txt"), ("flag", "-a")]) ∧
    argvOf (some [("flag", "-a"), ("file", "cli-output.txt")]) =
      ["cli-output.txt", "-a"] := by
  constructor
  · exact (argv_lexicographic_by_key
      [("flag", "-a"), ("file", "cli-output.txt")]
      [("file", "cli-output.txt"), ("flag", "-a")]
      (by decide) (by decide)).1
  · have h1 : ¬("flag" ≤ "file") := by norm_num; decide
    simp [argvOf, List.insertionSort, List.orderedInsert, lookupArgString,
      List.lookup, h1]

/-- C6: the result carries `stdoutBuffer`/`stderrBuffer` exactly when capture
is `buffer` or `both`; each buffer is the concatenation, in arrival order, of
the chunks emitted on that stream; with capture `buffer` the string fields
are decoded from the buffers at process close. -/
theorem capture_buffer_concat (decode : List Nat → String)
    (inv : CliRuntimeInvocation) (child : ChildBehavior) (code : Option Int)
    (r : CliRuntimeResult) (hc : child.outcome = .close code)
    (hr : (defaultRunCliArgs decode inv child).result = .ok r) :
    (r.stdoutBuffer.isSome ↔
      (inv.capture = some .buffer ∨ inv.capture = some .both)) ∧
    (r.stderrBuffer.isSome ↔
      (inv.capture = some .buffer ∨ inv.capture = some .both)) ∧
    (∀ b, r.stdoutBuffer = some b → b = child.stdoutChunks.flatten) ∧
    (∀ b, r.stderrBuffer = some b → b = child.stderrChunks.flatten) ∧
    (inv.capture = some .buffer →
      r.stdout = decode child.stdoutChunks.flatten ∧
      r.stderr = decode child.stderrChunks.flatten) := by
  simp only [defaultRunCliArgs, hc] at hr
  injection hr with hr
  subst hr
  cases hcap : inv.capture with
  | none => simp
  | some c => cases c <;> simp

def bufferInv : CliRuntimeInvocation :=
  { command := "printf", args := some [("arg0", "%s")], cwd := "/tmp",
    stdinValue := none, capture := some .buffer }

def bufferResult : CliRuntimeResult :=
  { stdout := "", stderr := "", stdoutBuffer := some [48],
    stderrBuffer := some [], exitCode := 2 }

theorem capture_buffer_concat_witness :
    bufferResult.stdoutBuffer.isSome ∧
    bufferResult.stdoutBuffer = some [48] ∧
    bufferResult.stdout = witnessDecode [48] := by
  have h := capture_buffer_concat witnessDecode bufferInv childClosing2
    (some 2) bufferResult rfl rfl
  exact ⟨h.1.mpr (Or.inl rfl), rfl, (h.2.2.2.2 rfl).1⟩

/-!
Provider response model, from `extractResponseText` in src/src/opencode.ts
(lines 200-209).  A response part either is a text part carrying a string or
has some other `type`; the function filters the text parts, takes the last
one (`.at(-1)`), and returns its text only when that text is truthy
(non-empty).
-/

inductive Part where
  | text (content : String)
  | other (ptype : String)
deriving DecidableEq, Repr

def isTextPart : Part → Bool
  | .text _ => true
  | .other _ => false

def errNoParts : String :=
  "\x7b\"status\":\"error\",\"summary\":\"opencode response contained no parts\"\x7d"

def errNoTextParts : String :=
  "\x7b\"status\":\"error\",\"summary\":\"opencode response contained no text parts\"\x7d"

def extractResponseText (response : Option (List Part)) : String :=
  match response with
  | none => errNoParts
  | some parts =>
    if parts.length = 0 then errNoParts
    else
      match (parts.filter isTextPart).getLast? with
      | some (.text t) => if t = "" then errNoTextParts else t
      | _ => errNoTextParts

/-- C7 counterexample: a parts array whose last text part is empty but which
contains an earlier non-empty text part.  The claim says the text of the last
non-empty text part ("hello") is returned; the code returns the no-text-parts
error JSON instead. -/
theorem extractResponseText_counterexample :
    extractResponseText (some [Part.text "hello", Part.text ""]) ≠ "hello" ∧
    extractResponseText (some [Part.text "hello", Part.text ""]) =
      errNoTextParts := by
  constructor
  · decide
  · rfl

/-- C7 (amended): when the last part of type text in the parts array has
non-empty text, `extractResponseText` returns that text; parts after it that
are not text parts do not affect the result. -/
theorem extractResponseText_last_text (parts : List Part) (t : String)
    (hlast : (parts.filter isTextPart).getLast? = some (.text t))
    (ht : t ≠ "") :
    extractResponseText (some parts) = t ∧
    ∀ extra : List Part, (∀ p ∈ extra, isTextPart p = false) →
      extractResponseText (some (parts ++ extra)) = t := by
  have hne : parts ≠ [] := by
    intro h
    rw [h] at hlast
    simp at hlast
  constructor
  · simp [extractResponseText, List.length_eq_zero, hne, hlast, ht]
  · intro extra hextra
    have hfil : extra.filter isTextPart = [] := by
      simp [List.filter_eq_nil_iff]
      intro p hp
      simp [hextra p hp]
    have happ : (parts ++ extra).filter isTextPart = parts.filter isTextPart := by
      rw [List.filter_append, hfil, List.append_nil]
    have hne2 : parts ++ extra ≠ [] := by
      simp [hne]
    simp [extractResponseText, List.length_eq_zero, hne2, happ, hlast, ht]
    exact fun h _ => absurd h hne

theorem extractResponseText_last_text_witness :
    extractResponseText (some [Part.other "step-start", Part.text "hi",
      Part.other "step-finish"]) = "hi" := by
  have h := extractResponseText_last_text [Part.other "step-start", Part.text "hi"]
    "hi" (by decide) (by decide)
  simpa using h.2 [Part.other "step-finish"] (by decide)

/-!
Agent definitions and tool permissions, from src/src/opencode.ts: `TOOL_KEYS`
(lines 215-227), `createAgentViaMarkdown` (lines 233-285),
`createAgentViaConfig` (lines 303-358), and the module-level cache
`opencodeServer` / `opencodeClients` with `closeOpencodeServer` and
`resetOpencodeClients` (lines 5-30).
-/

inductive ToolKey where
  | read
  | write
  | edit
  | bash
  | grep
  | glob
  | list
  | patch
  | todowrite
  | todoread
  | webfetch
deriving DecidableEq, Repr

def TOOL_KEYS : List ToolKey :=
  [.read, .write, .edit, .bash, .grep, .glob, .list, .patch, .todowrite,
   .todoread, .webfetch]

def toolKeyName : ToolKey → String
  | .read => "read"
  | .write => "write"
  | .edit => "edit"
  | .bash => "bash"
  | .grep => "grep"
  | .glob => "glob"
  | .list => "list"
  | .patch => "patch"
  | .todowrite => "todowrite"
  | .todoread => "todoread"
  | .webfetch => "webfetch"

/-- `ToolOptions = Partial<Record<ToolKey, boolean>>`: each key maps to a
boolean or is absent. -/
def ToolOptions : Type := ToolKey → Option Bool

/-- The entry for `key` in the (possibly undefined) tools map. -/
def toolOf (tools : Option ToolOptions) (k : ToolKey) : Option Bool :=
  match tools with
  | some t => t k
  | none => none

/-- `tools && typeof tools[key] === 'boolean' ? tools[key] : false`. -/
def toolFlag (tools : Option ToolOptions) (k : ToolKey) : Bool :=
  (toolOf tools k).getD false

inductive Permission where
  | allow
  | ask
  | deny
deriving DecidableEq, Repr

/-- The keys receiving a `permission` entry, in the source order
(`['edit', 'bash', 'webfetch']`). -/
def permissionKeys : List ToolKey := [.edit, .bash, .webfetch]

/-- `tools && tools[key] ? 'allow' : 'deny'` (JS truthiness on a
boolean-or-undefined entry). -/
def permissionFlag (tools : Option ToolOptions) (k : ToolKey) : Permission :=
  match tools with
  | some t => if (t k).getD false then .allow else .deny
  | none => .deny

def boolString (b : Bool) : String := if b then "true" else "false"

def permissionString : Permission → String
  | .allow => "allow"
  | .ask => "ask"
  | .deny => "deny"

/-- `const [providerID, modelID] = model.split('/')`. -/
def modelParts (model : String) : String × String :=
  let parts := model.splitOn "/"
  (parts.headD "", ((parts.drop 1).headD "undefined"))

/-- The markdown frontmatter plus instructions written by
`createAgentViaMarkdown` when the definition file does not yet exist. -/
def markdownFrontmatterLines (name model instructions : String)
    (tools : Option ToolOptions) : List String :=
  ["---", "description: " ++ name, "mode: primary",
   "model: " ++ (modelParts model).1 ++ "/" ++ (modelParts model).2, "tools:"]
  ++ TOOL_KEYS.map (fun k => "  " ++ toolKeyName k ++ ": " ++
      boolString (toolFlag tools k))
  ++ ["permission:"]
  ++ permissionKeys.map (fun k => "  " ++ toolKeyName k ++ ": " ++
      permissionString (permissionFlag tools k))
  ++ ["---", "", instructions]

structure AgentConfig where
  description : Option String
  mode : String
  model : String
  prompt : String
  tools : List (ToolKey × Bool)
  permission : List (ToolKey × Permission)
deriving DecidableEq, Repr

/-- The agent entry `createAgentViaConfig` stores into `config.agent[name]`:
every tool key recorded (`false` unless the map holds a boolean), and
permission entries for edit/bash/webfetch. -/
def configAgentEntry (name model instructions : String)
    (tools : Option ToolOptions) : AgentConfig :=
  { description := some name
    mode := "primary"
    model := (modelParts model).1 ++ "/" ++ (modelParts model).2
    prompt := instructions
    tools := TOOL_KEYS.map (fun k => (k, toolFlag tools k))
    permission := permissionKeys.map (fun k => (k, permissionFlag tools k)) }

/-- Module-level provider cache: the singleton server (by url) and the
per-directory client map. -/
structure OpencodeModuleState where
  server : Option String
  clients : List (String × Nat)
deriving DecidableEq, Repr

def resetOpencodeClients (st : OpencodeModuleState) : OpencodeModuleState :=
  { st with clients := [] }

/-- `closeOpencodeServer`: closes and clears the singleton server (when
present) and discards every cached client. -/
def closeOpencodeServer (st : OpencodeModuleState) : OpencodeModuleState :=
  resetOpencodeClients { st with server := none }

structure MarkdownCreateResult where
  state : OpencodeModuleState
  written : Option (List String)
deriving DecidableEq, Repr

/-- `createAgentViaMarkdown`: when the definition file already exists it
returns without writing; otherwise it writes the frontmatter file and then
calls `closeOpencodeServer` to invalidate the provider cache. -/
def createAgentViaMarkdown (name model instructions : String)
    (tools : Option ToolOptions) (fileExists : Bool)
    (st : OpencodeModuleState) : MarkdownCreateResult :=
  if fileExists then
    { state := st, written := none }
  else
    { state := closeOpencodeServer st
      written := some (markdownFrontmatterLines name model instructions tools) }

structure OpencodeConfig where
  agent : List (String × AgentConfig)
deriving DecidableEq, Repr

structure ConfigCreateResult where
  state : OpencodeModuleState
  written : Option OpencodeConfig
deriving DecidableEq, Repr

/-- `createAgentViaConfig`: reads `opencode.json` (absent file means an empty
config), leaves an existing agent entry untouched, otherwise appends the new
entry, writes the config back and invalidates the provider cache. -/
def createAgentViaConfig (name model instructions : String)
    (tools : Option ToolOptions) (config : Option OpencodeConfig)
    (st : OpencodeModuleState) : ConfigCreateResult :=
  let cfg := config.getD { agent := [] }
  if (cfg.agent.lookup name).isSome then
    { state := st, written := none }
  else
    { state := closeOpencodeServer st
      written := some { agent :=
        cfg.agent ++ [(name, configAgentEntry name model instructions tools)] } }

/-- C3: every tool key omitted from the role tools map is recorded as `false`
in the written agent definition (both the markdown frontmatter and the
`opencode.json` entry), recorded keys keep their boolean, and the permission
entries for edit, bash and webfetch are `deny` unless the tool was granted
`true`. -/
theorem agent_tool_permission_defaults (name model instructions : String)
    (tools : Option ToolOptions) (k : ToolKey) :
    (toolOf tools k = none → toolFlag tools k = false) ∧
    ((configAgentEntry name model instructions tools).tools.lookup k =
      some (toolFlag tools k)) ∧
    (("  " ++ toolKeyName k ++ ": " ++ boolString (toolFlag tools k)) ∈
      markdownFrontmatterLines name model instructions tools) ∧
    (k ∈ permissionKeys →
      (configAgentEntry name model instructions tools).permission.lookup k =
        some (permissionFlag tools k) ∧
      (toolOf tools k ≠ some true → permissionFlag tools k = .deny)) := by
  have hk : k ∈ TOOL_KEYS := by cases k <;> decide
  refine ⟨?_, ?_, ?_, ?_⟩
  · intro h
    simp [toolFlag, h]
  · exact List.lookup_graph (toolFlag tools) hk
  · unfold markdownFrontmatterLines
    exact List.mem_append_left _ (List.mem_append_left _ (List.mem_append_left _
      (List.mem_append_right _ (List.mem_map_of_mem _ hk))))
  · intro hkp
    refine ⟨List.lookup_graph (permissionFlag tools) hkp, ?_⟩
    intro h
    match htools : tools with
    | none => rfl
    | some t =>
      match htk : t k with
      | none => simp [permissionFlag, htk]
      | some true => exact absurd (by simp [toolOf, htk]) h
      | some false => simp [permissionFlag, htk]

def sampleTools : ToolOptions := fun k =>
  match k with
  | .read => some true
  | _ => none

theorem agent_tool_permission_defaults_witness :
    toolFlag (some sampleTools) .edit = false ∧
    permissionFlag (some sampleTools) .edit = .deny ∧
    ("  edit: false") ∈
      markdownFrontmatterLines "tester" "github-copilot/gpt-5-mini"
        "confirm things" (some sampleTools) := by
  have h := agent_tool_permission_defaults "tester" "github-copilot/gpt-5-mini"
    "confirm things" (some sampleTools) .edit
  refine ⟨h.1 rfl, (h.2.2.2 (by decide)).2 (by simp [toolOf, sampleTools]), ?_⟩
  have hm := h.2.2.1
  simpa using hm

/-- C8: writing a new agent definition invalidates the provider cache — the
singleton server is cleared and every cached per-directory client discarded —
while an already-existing definition leaves the cache untouched and writes
nothing.  Holds for both `createAgentViaMarkdown` and
`createAgentViaConfig`. -/
theorem agent_creation_invalidates_cache (name model instructions : String)
    (tools : Option ToolOptions) (st : OpencodeModuleState) :
    (∀ fileExists : Bool, fileExists = false →
      (createAgentViaMarkdown name model instructions tools fileExists st).state.server
          = none ∧
      (createAgentViaMarkdown name model instructions tools fileExists st).state.clients
          = [] ∧
      (createAgentViaMarkdown name model instructions tools fileExists st).written
          = some (markdownFrontmatterLines name model instructions tools)) ∧
    (∀ fileExists : Bool, fileExists = true →
      createAgentViaMarkdown name model instructions tools fileExists st =
        { state := st, written := none }) ∧
    (∀ config : Option OpencodeConfig,
      ((config.getD { agent := [] }).agent.lookup name).isSome = false →
      (createAgentViaConfig name model instructions tools config st).state.server
          = none ∧
      (createAgentViaConfig name model instructions tools config st).state.clients
          = []) ∧
    (∀ config : Option OpencodeConfig,
      ((config.getD { agent := [] }).agent.lookup name).isSome = true →
      createAgentViaConfig name model instructions tools config st =
        { state := st, written := none }) := by
  refine ⟨?_, ?_, ?_, ?_⟩
  · intro fileExists h
    subst h
    exact ⟨rfl, rfl, rfl⟩
  · intro fileExists h
    subst h
    rfl
  · intro config h
    simp [createAgentViaConfig, h, closeOpencodeServer, resetOpencodeClients]
  · intro config h
    simp [createAgentViaConfig, h]

def cachedState : OpencodeModuleState :=
  { server := some "http://127.0.0.1:4096", clients := [("/tmp/work", 1)] }

theorem agent_creation_invalidates_cache_witness :
    (createAgentViaMarkdown "tester" "github-copilot/gpt-5-mini" "confirm"
        none false cachedState).state.server = none ∧
    (createAgentViaMarkdown "tester" "github-copilot/gpt-5-mini" "confirm"
        none false cachedState).state.clients = [] ∧
    (createAgentViaMarkdown "tester" "github-copilot/gpt-5-mini" "confirm"
        none true cachedState).state = cachedState := by
  have h := agent_creation_invalidates_cache "tester" "github-copilot/gpt-5-mini"
    "confirm" none cachedState
  refine ⟨(h.1 false rfl).1, (h.1 false rfl).2.1, ?_⟩
  rw [h.2.1 true rfl]

/-!
Round builder, from `RoundBuilder` in src/src/index.ts (both copies of the
fluent builder, lines 278-334 and 731-789; the `build` bodies are
identical).  Steps are pushed in call order; `build` demands a default
outcome and a non-empty step list.
-/

structure StepDraft where
  key : String
  kind : String
deriving DecidableEq, Repr

structure RoundDraft where
  start : Option String
  steps : List StepDraft
  maxRounds : Option Nat
  defaultOutcome : Option (String × String)
deriving DecidableEq, Repr

def emptyRoundDraft : RoundDraft :=
  { start := none, steps := [], maxRounds := none, defaultOutcome := none }

/-- Each of `agent` / `cli` / `workflow` / `transform` appends one step to the
draft. -/
def pushStep (d : RoundDraft) (s : StepDraft) : RoundDraft :=
  { d with steps := d.steps ++ [s] }

structure BuiltRound where
  start : Option String
  steps : List StepDraft
  maxRounds : Option Nat
  defaultOutcome : String × String
deriving DecidableEq, Repr

def RoundBuilder.build (d : RoundDraft) : Except String BuiltRound :=
  match d.defaultOutcome with
  | none => .error "defaultOutcome is required for workflow rounds"
  | some dout =>
    if d.steps.length = 0 then
      .error "At least one step is required in a workflow round"
    else
      .ok { start := d.start, steps := d.steps, maxRounds := d.maxRounds,
            defaultOutcome := dout }

theorem foldl_pushStep (l : List StepDraft) (d : RoundDraft) :
    (l.foldl pushStep d).steps = d.steps ++ l := by
  induction l generalizing d with
  | nil => simp
  | cons s rest ih => simp [pushStep, ih]

/-- C9: `RoundBuilder.build` fails with the dedicated messages when no
default outcome was set or when no step was added, and otherwise returns the
round with the steps in insertion order. -/
theorem roundBuilder_build_validation (d : RoundDraft) :
    (d.defaultOutcome = none →
      RoundBuilder.build d =
        .error "defaultOutcome is required for workflow rounds") ∧
    (∀ o, d.defaultOutcome = some o → d.steps = [] →
      RoundBuilder.build d =
        .error "At least one step is required in a workflow round") ∧
    (∀ o, d.defaultOutcome = some o → d.steps ≠ [] →
      RoundBuilder.build d =
        .ok { start := d.start, steps := d.steps, maxRounds := d.maxRounds,
              defaultOutcome := o }) ∧
    (∀ l : List StepDraft, (l.foldl pushStep emptyRoundDraft).steps = l) := by
  refine ⟨?_, ?_, ?_, ?_⟩
  · intro h
    simp [RoundBuilder.build, h]
  · intro o ho hs
    simp [RoundBuilder.build, ho, hs]
  · intro o ho hs
    simp [RoundBuilder.build, ho, List.length_eq_zero, hs]
  · intro l
    simpa using foldl_pushStep l emptyRoundDraft

def writeStepDraft : StepDraft := { key := "writeLine", kind := "cli" }

def stepLessDraft : RoundDraft :=
  { start := none, steps := [], maxRounds := none,
    defaultOutcome := some ("completed", "done") }

def singleStepDraft : RoundDraft :=
  { start := none, steps := [writeStepDraft], maxRounds := none,
    defaultOutcome := some ("completed", "done") }

theorem roundBuilder_build_validation_witness :
    RoundBuilder.build emptyRoundDraft =
      .error "defaultOutcome is required for workflow rounds" ∧
    RoundBuilder.build stepLessDraft =
      .error "At least one step is required in a workflow round" ∧
    RoundBuilder.build singleStepDraft =
      .ok { start := none, steps := [writeStepDraft], maxRounds := none,
            defaultOutcome := ("completed", "done") } := by
  refine ⟨(roundBuilder_build_validation emptyRoundDraft).1 rfl, ?_, ?_⟩
  · exact (roundBuilder_build_validation stepLessDraft).2.1
      ("completed", "done") rfl rfl
  · exact (roundBuilder_build_validation singleStepDraft).2.2.1
      ("completed", "done") rfl (by decide)

/-!
JSON-like values used by user inputs, parser defaults and the converter.
-/

inductive JVal where
  | s (v : String)
  | n (v : Int)
  | b (v : Bool)
  | arr (vs : List JVal)
  | obj (fields : List (String × JVal))
  | null
deriving BEq, Repr

/-!
Run harness input validation.

Modelled from the spec: the run harness (`runWorkflow` / `runAgentWorkflow`
in agent-orchestrator.ts) and the compact parser-schema validator
(workflow-schema.ts) are not among the provided sources — only their tests
and callers are.  Spec section 4.9 step 1: the harness validates `user`
against the document's `user` schema and on failure rejects with
`InputValidationError` whose message is
`"Invalid user inputs for workflow <id>: <details>"`, before running any
step; section 4.1 gives the validator contract (defaults adopted when a
value is absent, type mismatch is a structured error).
-/

inductive UserSchema where
  | ustring (default : Option String)
  | unumber (default : Option Int)
  | uboolean (default : Option Bool)
  | uunknown
deriving Repr

/-- Modelled from the spec (section 4.1): validate one input against its
compact schema, adopting the default when the value is absent. -/
def validateUserValue : UserSchema → Option JVal → Except String JVal
  | .ustring d, none =>
    match d with
    | some s => .ok (.s s)
    | none => .error "missing required input"
  | .ustring _, some (.s s) => .ok (.s s)
  | .ustring _, some _ => .error "expected string"
  | .unumber d, none =>
    match d with
    | some v => .ok (.n v)
    | none => .error "missing required input"
  | .unumber _, some (.n v) => .ok (.n v)
  | .unumber _, some _ => .error "expected number"
  | .uboolean d, none =>
    match d with
    | some v => .ok (.b v)
    | none => .error "missing required input"
  | .uboolean _, some (.b v) => .ok (.b v)
  | .uboolean _, some _ => .error "expected boolean"
  | .uunknown, none => .ok .null
  | .uunknown, some v => .ok v

/-- Modelled from the spec: validate the whole `user` map, reporting the
first failing key in the error details. -/
def validateUserInputs (schema : List (String × UserSchema))
    (inputs : List (String × JVal)) : Except String (List (String × JVal)) :=
  match schema with
  | [] => .ok []
  | (key, s) :: rest =>
    match validateUserValue s (inputs.lookup key) with
    | .error e => .error (key ++ ": " ++ e)
    | .ok v =>
      match validateUserInputs rest inputs with
      | .error e => .error e
      | .ok vs => .ok ((key, v) :: vs)

structure WorkflowDoc where
  id : String
  user : List (String × UserSchema)
  stepKeys : List String

inductive RunError where
  | inputValidation (message : String)
  | fatal (message : String)
deriving DecidableEq, Repr

/-- Modelled from the spec (section 4.9): the harness validates user inputs
first; on failure the result future rejects with `InputValidationError` and
no step runs (second component: the side effects the executed steps
performed). -/
def runWorkflowModel (doc : WorkflowDoc) (inputs : List (String × JVal))
    (runStep : String → List String) :
    Except RunError (List (String × JVal)) × List String :=
  match validateUserInputs doc.user inputs with
  | .error details =>
    (.error (.inputValidation
      ("Invalid user inputs for workflow " ++ doc.id ++ ": " ++ details)), [])
  | .ok coerced => (.ok coerced, doc.stepKeys.flatMap runStep)

/-- C4: a run whose user inputs fail the workflow's `user` schema rejects
with an `InputValidationError` whose message is exactly
`"Invalid user inputs for workflow <id>: <details>"`, and no step side
effects occur. -/
theorem run_rejects_invalid_user_inputs (doc : WorkflowDoc)
    (inputs : List (String × JVal)) (runStep : String → List String)
    (details : String)
    (h : validateUserInputs doc.user inputs = .error details) :
    runWorkflowModel doc inputs runStep =
      (.error (.inputValidation
        ("Invalid user inputs for workflow " ++ doc.id ++ ": " ++ details)),
       []) := by
  simp [runWorkflowModel, h]

def referenceDoc : WorkflowDoc :=
  { id := "workflow-reference.v1"
    user := [("goalFile", .ustring (some "nested-output.txt")),
             ("goalContent", .ustring (some "Nested workflow content"))]
    stepKeys := ["invokeChild"] }

theorem run_rejects_invalid_user_inputs_witness :
    runWorkflowModel referenceDoc [("goalFile", .n 123)]
        (fun k => ["effect " ++ k]) =
      (.error (.inputValidation
        ("Invalid user inputs for workflow workflow-reference.v1: " ++
          "goalFile: expected string")), []) := by
  rw [run_rejects_invalid_user_inputs referenceDoc [("goalFile", .n 123)]
    (fun k => ["effect " ++ k]) "goalFile: expected string" rfl]
  rfl

/-!
Zod-to-parser-schema conversion, from src/src/index.ts: `unwrapEffects`
(lines 43-49), `unwrapSchema` (lines 51-80), `extractStringChecks` (82-94),
`extractNumberChecks` (96-110), `convertUnionOfLiterals` (112-130) and
`zodToWorkflowParserJsonSchema` (132-193).  A Zod schema is modelled by the
shape of its `_def` that the converter inspects.  The pattern match of
`unwrapSchema` mirrors the TS control flow exactly: strip `effects`
wrappers, strip at most one `default` layer, handle one `optional` layer by
recursion, reject `nullable`, and return the effects-stripped core.
-/

inductive StrCheck where
  | cmin (v : Nat)
  | cmax (v : Nat)
  | cemail
  | curl
  | cuuid
  | cregex
  | cother (kind : String)
deriving DecidableEq, Repr

inductive NumCheck where
  | cmin (v : Int)
  | cmax (v : Int)
  | cint
  | cfinite
  | cother (kind : String)
deriving DecidableEq, Repr

inductive Zod where
  | zunknown
  | zany
  | zstring (checks : List StrCheck)
  | znumber (checks : List NumCheck)
  | zboolean
  | zarray (element : Zod)
  | zobject (shape : List (String × Zod))
  | zliteral (value : JVal)
  | zenum (values : List String)
  | zunion (options : List Zod)
  | zoptional (inner : Zod)
  | zdefault (value : JVal) (inner : Zod)
  | zeffects (inner : Zod)
  | znullable (inner : Zod)

def unwrapEffects : Zod → Zod
  | .zeffects inner => unwrapEffects inner
  | z => z

structure Unwrapped where
  inner : Zod
  defaultValue : Option JVal
  required : Bool

def nullableErr : String :=
  "Nullable schemas are not supported for workflow conversion"

def unwrapSchema : Zod → Except String Unwrapped
  | .zeffects inner => unwrapSchema inner
  | .zdefault v inner =>
    match inner with
    | .zoptional inner2 =>
      match unwrapSchema inner2 with
      | .error e => .error e
      | .ok nested =>
        match nested.inner with
        | .znullable _ => .error nullableErr
        | _ => .ok { inner := unwrapEffects nested.inner,
                     defaultValue := some v, required := false }
    | .znullable _ => .error nullableErr
    | c => .ok { inner := unwrapEffects c, defaultValue := some v,
                 required := false }
  | .zoptional inner2 =>
    match unwrapSchema inner2 with
    | .error e => .error e
    | .ok nested =>
      match nested.inner with
      | .znullable _ => .error nullableErr
      | _ => .ok { inner := unwrapEffects nested.inner,
                   defaultValue := nested.defaultValue, required := false }
  | .znullable _ => .error nullableErr
  | z => .ok { inner := unwrapEffects z, defaultValue := none,
               required := true }

theorem sizeOf_unwrapEffects_le : ∀ z : Zod, sizeOf (unwrapEffects z) ≤ sizeOf z
  | .zeffects inner => by
    simp only [unwrapEffects]
    exact (sizeOf_unwrapEffects_le inner).trans (by simp_arith)
  | .zunknown => by simp [unwrapEffects]
  | .zany => by simp [unwrapEffects]
  | .zstring _ => by simp [unwrapEffects]
  | .znumber _ => by simp [unwrapEffects]
  | .zboolean => by simp [unwrapEffects]
  | .zarray _ => by simp [unwrapEffects]
  | .zobject _ => by simp [unwrapEffects]
  | .zliteral _ => by simp [unwrapEffects]
  | .zenum _ => by simp [unwrapEffects]
  | .zunion _ => by simp [unwrapEffects]
  | .zoptional _ => by simp [unwrapEffects]
  | .zdefault _ _ => by simp [unwrapEffects]
  | .znullable _ => by simp [unwrapEffects]

theorem unwrapSchema_inner_sizeOf_le :
    ∀ (z : Zod) (u : Unwrapped), unwrapSchema z = .ok u → sizeOf u.inner ≤ sizeOf z
  | .zeffects inner, u, h => by
    have hrec := unwrapSchema_inner_sizeOf_le inner u h
    exact hrec.trans (by simp_arith)
  | .zdefault v inner, u, h => by
    cases inner
    case zoptional inner2 =>
      simp only [unwrapSchema] at h
      split at h
      · cases h
      · rename_i nested heq
        have hle := unwrapSchema_inner_sizeOf_le inner2 nested heq
        have hle2 := sizeOf_unwrapEffects_le nested.inner
        split at h
        · cases h
        · cases h
          simp_arith
          omega
    all_goals
      simp only [unwrapSchema] at h
      cases h <;> exact (sizeOf_unwrapEffects_le _).trans (by simp_arith)
  | .zoptional inner2, u, h => by
    simp only [unwrapSchema] at h
    split at h
    · cases h
    · rename_i nested heq
      have hle := unwrapSchema_inner_sizeOf_le inner2 nested heq
      have hle2 := sizeOf_unwrapEffects_le nested.inner
      split at h
      · cases h
      · cases h
        simp_arith
        omega
  | .znullable w, u, h => by
    simp only [unwrapSchema] at h
    cases h
  | .zunknown, u, h => by
    simp only [unwrapSchema] at h
    cases h
    exact (sizeOf_unwrapEffects_le _).trans (by simp_arith)
  | .zany, u, h => by
    simp only [unwrapSchema] at h
    cases h
    exact (sizeOf_unwrapEffects_le _).trans (by simp_arith)
  | .zstring checks, u, h => by
    simp only [unwrapSchema] at h
    cases h
    exact (sizeOf_unwrapEffects_le _).trans (by simp_arith)
  | .znumber checks, u, h => by
    simp only [unwrapSchema] at h
    cases h
    exact (sizeOf_unwrapEffects_le _).trans (by simp_arith)
  | .zboolean, u, h => by
    simp only [unwrapSchema] at h
    cases h
    exact (sizeOf_unwrapEffects_le _).trans (by simp_arith)
  | .zarray el, u, h => by
    simp only [unwrapSchema] at h
    cases h
    exact (sizeOf_unwrapEffects_le _).trans (by simp_arith)
  | .zobject shape, u, h => by
    simp only [unwrapSchema] at h
    cases h
    exact (sizeOf_unwrapEffects_le _).trans (by simp_arith)
  | .zliteral v, u, h => by
    simp only [unwrapSchema] at h
    cases h
    exact (sizeOf_unwrapEffects_le _).trans (by simp_arith)
  | .zenum vs, u, h => by
    simp only [unwrapSchema] at h
    cases h
    exact (sizeOf_unwrapEffects_le _).trans (by simp_arith)
  | .zunion os, u, h => by
    simp only [unwrapSchema] at h
    cases h
    exact (sizeOf_unwrapEffects_le _).trans (by simp_arith)

/-!
Parser draft produced by the converter (`ParserDraft` in src/src/index.ts
lines 23-35): each variant may carry `enum`, bounds and a `default` (spelled
`dflt` here).
-/

inductive PDraft where
  | punknown (dflt : Option JVal)
  | pstring (enum : Option (List String)) (minLength maxLength : Option Nat)
      (dflt : Option JVal)
  | pnumber (enum : Option (List Int)) (minimum maximum : Option Int)
      (integer : Bool) (dflt : Option JVal)
  | pboolean (dflt : Option JVal)
  | parray (items : PDraft) (dflt : Option JVal)
  | pobject (properties : List (String × PDraft))
      (required : Option (List String)) (dflt : Option JVal)

def PDraft.getDefault : PDraft → Option JVal
  | .punknown d => d
  | .pstring _ _ _ d => d
  | .pnumber _ _ _ _ d => d
  | .pboolean d => d
  | .parray _ d => d
  | .pobject _ _ d => d

/-- `if (defaultValue !== undefined) parsed.default = defaultValue`. -/
def PDraft.withDefault (p : PDraft) : Option JVal → PDraft
  | none => p
  | some v =>
    match p with
    | .punknown _ => .punknown (some v)
    | .pstring e mn mx _ => .pstring e mn mx (some v)
    | .pnumber e mn mx i _ => .pnumber e mn mx i (some v)
    | .pboolean _ => .pboolean (some v)
    | .parray it _ => .parray it (some v)
    | .pobject pr rq _ => .pobject pr rq (some v)

def stringCheckErr : String := "Unsupported string constraint in Zod schema"

def extractStringChecksAux :
    List StrCheck → Option Nat → Option Nat → Except String (Option Nat × Option Nat)
  | [], mn, mx => .ok (mn, mx)
  | .cmin v :: rest, _, mx => extractStringChecksAux rest (some v) mx
  | .cmax v :: rest, mn, _ => extractStringChecksAux rest mn (some v)
  | .cemail :: rest, mn, mx => extractStringChecksAux rest mn mx
  | .curl :: rest, mn, mx => extractStringChecksAux rest mn mx
  | .cuuid :: rest, mn, mx => extractStringChecksAux rest mn mx
  | .cregex :: rest, mn, mx => extractStringChecksAux rest mn mx
  | .cother _ :: _, _, _ => .error stringCheckErr

def extractStringChecks (checks : List StrCheck) :
    Except String (Option Nat × Option Nat) :=
  extractStringChecksAux checks none none

def numberCheckErr : String := "Unsupported number constraint in Zod schema"

def extractNumberChecksAux :
    List NumCheck → Option Int → Option Int → Bool →
      Except String (Option Int × Option Int × Bool)
  | [], mn, mx, itg => .ok (mn, mx, itg)
  | .cmin v :: rest, _, mx, itg => extractNumberChecksAux rest (some v) mx itg
  | .cmax v :: rest, mn, _, itg => extractNumberChecksAux rest mn (some v) itg
  | .cint :: rest, mn, mx, _ => extractNumberChecksAux rest mn mx true
  | .cfinite :: rest, mn, mx, itg => extractNumberChecksAux rest mn mx itg
  | .cother _ :: _, _, _, _ => .error numberCheckErr

def extractNumberChecks (checks : List NumCheck) :
    Except String (Option Int × Option Int × Bool) :=
  extractNumberChecksAux checks none none false

def isLiteralNode : Zod → Bool
  | .zliteral _ => true
  | _ => false

/-- The literal payload (`def.value ?? def.values[0]`); only applied to
literal nodes. -/
def literalValue : Zod → JVal
  | .zliteral v => v
  | _ => .null

def isStringJVal : JVal → Bool
  | .s _ => true
  | _ => false

def isNumberJVal : JVal → Bool
  | .n _ => true
  | _ => false

def isBoolJVal : JVal → Bool
  | .b _ => true
  | _ => false

/-- `schemas.map((s) => unwrapSchema(s).inner)` with thrown errors
propagating. -/
def unwrapInners : List Zod → Except String (List Zod)
  | [] => .ok []
  | s :: rest =>
    match unwrapSchema s with
    | .error e => .error e
    | .ok u =>
      match unwrapInners rest with
      | .error e => .error e
      | .ok tl => .ok (u.inner :: tl)

def convertUnionOfLiterals (options : List Zod) : Except String PDraft :=
  match unwrapInners options with
  | .error e => .error e
  | .ok inners =>
    let lits := inners.filter isLiteralNode
    if lits.length ≠ options.length then
      .error "Only unions of literals are supported"
    else
      let values := lits.map literalValue
      if values.all isStringJVal then
        .ok (.pstring (some (values.filterMap fun v =>
          match v with | .s s => some s | _ => none)) none none none)
      else if values.all isNumberJVal then
        .ok (.pnumber (some (values.filterMap fun v =>
          match v with | .n n => some n | _ => none)) none none false none)
      else if values.all isBoolJVal then
        if values.length = 1 then
          .ok (.pboolean (some (values.headD .null)))
        else
          .error "Boolean literal unions with multiple values are not supported"
      else
        .error "Unsupported literal union type"

def unsupportedSchemaErr : String :=
  "Unsupported Zod schema type for workflow parser conversion"

mutual

/-- `zodToWorkflowParserJsonSchema`: unwrap, convert the core shape, then
record the unwrapped default on the draft. -/
def convertZod (schema : Zod) : Except String PDraft :=
  match hu : unwrapSchema schema with
  | .error e => .error e
  | .ok u =>
    match convertInner u.inner with
    | .error e => .error e
    | .ok core => .ok (core.withDefault u.defaultValue)
termination_by 2 * sizeOf schema + 1
decreasing_by
  have := unwrapSchema_inner_sizeOf_le schema u hu
  omega

/-- The per-type dispatch on `typeNameOf(inner)` in
`zodToWorkflowParserJsonSchema`. -/
def convertInner : Zod → Except String PDraft
  | .zunknown => .ok (.punknown none)
  | .zany => .ok (.punknown none)
  | .zstring checks =>
    match extractStringChecks checks with
    | .error e => .error e
    | .ok (mn, mx) => .ok (.pstring none mn mx none)
  | .znumber checks =>
    match extractNumberChecks checks with
    | .error e => .error e
    | .ok (mn, mx, itg) => .ok (.pnumber none mn mx itg none)
  | .zboolean => .ok (.pboolean none)
  | .zarray el =>
    match convertZod el with
    | .error e => .error e
    | .ok item => .ok (.parray item none)
  | .zobject shape =>
    match convertShape shape with
    | .error e => .error e
    | .ok (props, reqKeys) =>
      .ok (.pobject props (if reqKeys.isEmpty then none else some reqKeys) none)
  | .zliteral v =>
    match v with
    | .s s => .ok (.pstring (some [s]) none none none)
    | .n n => .ok (.pnumber (some [n]) none none false none)
    | .b b => .ok (.pboolean (some (JVal.b b)))
    | _ => .error "Unsupported literal type in Zod schema"
  | .zenum values => .ok (.pstring (some values) none none none)
  | .zunion options => convertUnionOfLiterals options
  | _ => .error unsupportedSchemaErr
termination_by z => 2 * sizeOf z
decreasing_by
  all_goals simp_arith

/-- The `Object.entries(shape)` loop of the object branch: convert each
property, and collect the key as required when the property is required and
records no default. -/
def convertShape :
    List (String × Zod) → Except String (List (String × PDraft) × List String)
  | [] => .ok ([], [])
  | (key, value) :: rest =>
    match convertZod value with
    | .error e => .error e
    | .ok converted =>
      match unwrapSchema value with
      | .error e => .error e
      | .ok unwrapped =>
        let hasDefault := converted.getDefault.isSome || unwrapped.defaultValue.isSome
        match convertShape rest with
        | .error e => .error e
        | .ok (props, reqs) =>
          .ok ((key, converted) :: props,
            if unwrapped.required && !hasDefault then key :: reqs else reqs)
termination_by l => 2 * sizeOf l
decreasing_by
  all_goals simp_arith

end

theorem getDefault_withDefault (p : PDraft) (v : JVal) :
    (p.withDefault (some v)).getDefault = some v := by
  cases p <;> rfl

/-- A default found by `unwrapSchema` is recorded on the converted draft. -/
theorem convertZod_default_recorded (z : Zod) (u : Unwrapped) (p : PDraft)
    (hu : unwrapSchema z = .ok u) (hp : convertZod z = .ok p)
    (v : JVal) (hd : u.defaultValue = some v) :
    p.getDefault = some v := by
  unfold convertZod at hp
  split at hp
  · cases hp
  · rename_i u' hu'
    rw [hu] at hu'
    injection hu' with hu'
    subst hu'
    split at hp
    · cases hp
    · rename_i core hcore
      cases hp
      rw [hd]
      exact getDefault_withDefault core v

/-- Specification of the `Object.entries(shape)` loop: properties keep every
key in order, and a key lands in `required` exactly when its schema is
required and records no default. -/
theorem convertShape_spec :
    ∀ (shape : List (String × Zod)) (props : List (String × PDraft))
      (reqs : List String),
      convertShape shape = .ok (props, reqs) →
      (shape.map Prod.fst).Nodup →
      props.map Prod.fst = shape.map Prod.fst ∧
      (∀ x, x ∈ reqs → x ∈ shape.map Prod.fst) ∧
      (∀ key value, (key, value) ∈ shape →
        ∃ u conv, unwrapSchema value = .ok u ∧ convertZod value = .ok conv ∧
          props.lookup key = some conv ∧
          (key ∈ reqs ↔ (u.required = true ∧ conv.getDefault = none ∧
            u.defaultValue = none))) := by
  intro shape
  induction shape with
  | nil =>
    intro props reqs h _
    unfold convertShape at h
    cases h
    refine ⟨rfl, ?_, ?_⟩
    · intro x hx
      cases hx
    · intro key value hkv
      cases hkv
  | cons head rest ih =>
    obtain ⟨key0, value0⟩ := head
    intro props reqs h hnd
    rw [List.map_cons, List.nodup_cons] at hnd
    obtain ⟨hk0, hndr⟩ := hnd
    unfold convertShape at h
    split at h
    · cases h
    rename_i conv hconv
    split at h
    · cases h
    rename_i u hu
    split at h
    · cases h
    rename_i props' reqs' hrest
    cases h
    obtain ⟨ihm, ihs, ihk⟩ := ih props' reqs' hrest hndr
    have hknot : key0 ∉ reqs' := fun hx => hk0 (ihs key0 hx)
    refine ⟨?_, ?_, ?_⟩
    · simp [ihm]
    · intro x hx
      cases hcond : (u.required && !(conv.getDefault.isSome ||
          u.defaultValue.isSome)) <;> rw [hcond] at hx <;> simp at hx
      · exact List.mem_cons_of_mem _ (ihs x hx)
      · rcases hx with rfl | hx'
        · exact List.mem_cons_self _ _
        · exact List.mem_cons_of_mem _ (ihs x hx')
    · intro key value hkv
      rcases List.mem_cons.mp hkv with heq | hmem
      · obtain ⟨rfl, rfl⟩ := Prod.mk.injEq .. |>.mp heq
        refine ⟨u, conv, hu, hconv, ?_, ?_⟩
        · simp [List.lookup_cons]
        · cases hur : u.required <;> cases hg : conv.getDefault <;>
            cases hdv : u.defaultValue <;>
            simp [hur, hg, hdv, hknot, List.mem_cons]
      · have hkey_ne : key ≠ key0 := by
          intro heq0
          apply hk0
          subst heq0
          simpa using List.mem_map_of_mem Prod.fst hmem
        obtain ⟨u', conv', hu', hconv', hlook, hiff⟩ := ihk key value hmem
        refine ⟨u', conv', hu', hconv', ?_, ?_⟩
        · have hbeq : (key == key0) = false := beq_false_of_ne hkey_ne
          simp [List.lookup_cons, hbeq, hlook]
        · cases hcond : (u.required && !(conv.getDefault.isSome ||
            u.defaultValue.isSome)) <;> simp [hkey_ne, hiff]

/-- C10: for a Zod object schema, a property key appears in the converted
parser schema's `required` list exactly when the property is neither
optional nor carries a default (none recorded on the converted draft and
none found by unwrapping); every property appears in `properties` in order,
and a default found by unwrapping is recorded on the property. -/
theorem zod_object_required_iff (shape : List (String × Zod))
    (props : List (String × PDraft)) (req : Option (List String))
    (d : Option JVal)
    (h : convertZod (.zobject shape) = .ok (.pobject props req d))
    (hnd : (shape.map Prod.fst).Nodup) :
    props.map Prod.fst = shape.map Prod.fst ∧
    ∀ key value, (key, value) ∈ shape →
      ∃ u conv, unwrapSchema value = .ok u ∧ convertZod value = .ok conv ∧
        props.lookup key = some conv ∧
        (key ∈ req.getD [] ↔ (u.required = true ∧ conv.getDefault = none ∧
          u.defaultValue = none)) ∧
        (∀ v, u.defaultValue = some v → conv.getDefault = some v) := by
  have hun : unwrapSchema (.zobject shape) =
      .ok { inner := .zobject shape, defaultValue := none, required := true } := rfl
  unfold convertZod at h
  split at h
  · rename_i e heq
    rw [hun] at heq
    cases heq
  · rename_i u hu0
    rw [hun] at hu0
    injection hu0 with hu0
    subst hu0
    split at h
    · cases h
    · rename_i core hcore
      have hcore2 : convertInner (.zobject shape) = .ok core := hcore
      unfold convertInner at hcore2
      cases hcs : convertShape shape with
      | error e =>
        rw [hcs] at hcore2
        cases hcore2
      | ok pr =>
        obtain ⟨props', reqs'⟩ := pr
        rw [hcs] at hcore2
        injection hcore2 with hcore2
        subst hcore2
        injection h with h
        simp only [PDraft.withDefault] at h
        injection h with h1 h2 h3
        subst h3
        rw [← h1, ← h2]
        obtain ⟨hmap, _, hper⟩ := convertShape_spec shape props' reqs' hcs hnd
        refine ⟨hmap, ?_⟩
        intro key value hkv
        obtain ⟨u', conv', hu', hconv', hlook, hiff⟩ := hper key value hkv
        refine ⟨u', conv', hu', hconv', hlook, ?_, ?_⟩
        · cases hre : reqs'.isEmpty
          · simp only [hre, if_neg, Bool.false_eq_true, Option.getD]
            exact hiff
          · have hnil : reqs' = [] := List.isEmpty_iff.mp hre
            subst hnil
            simpa using hiff
        · intro v hv
          exact convertZod_default_recorded value u' conv' hu' hconv' v hv

def workflowTestShape : List (String × Zod) :=
  [("status", .zenum ["pending", "done"]),
   ("choice", .zunion [.zliteral (.n 1), .zliteral (.n 2)]),
   ("maybe", .zoptional (.zstring [])),
   ("flag", .zliteral (.b true))]

def expectedProps : List (String × PDraft) :=
  [("status", .pstring (some ["pending", "done"]) none none none),
   ("choice", .pnumber (some [1, 2]) none none false none),
   ("maybe", .pstring none none none none),
   ("flag", .pboolean (some (.b true)))]

theorem convertZod_eq_ok (schema : Zod) (u : Unwrapped) (core : PDraft)
    (hu : unwrapSchema schema = .ok u) (hc : convertInner u.inner = .ok core) :
    convertZod schema = .ok (core.withDefault u.defaultValue) := by
  rw [convertZod.eq_def]
  split
  · rename_i e heq
    rw [hu] at heq
    cases heq
  · rename_i u' hu'
    rw [hu] at hu'
    injection hu' with hu'
    subst hu'
    rw [hc]

theorem convertInner_object_ok (shape : List (String × Zod))
    (props : List (String × PDraft)) (reqs : List String)
    (h : convertShape shape = .ok (props, reqs)) :
    convertInner (.zobject shape) =
      .ok (.pobject props (if reqs.isEmpty then none else some reqs) none) := by
  rw [convertInner.eq_def]
  show (match convertShape shape with
    | Except.error e => Except.error e
    | Except.ok (props2, reqKeys) =>
      Except.ok (PDraft.pobject props2
        (if reqKeys.isEmpty then none else some reqKeys) none)) = _
  rw [h]

theorem convertShape_nil_eq : convertShape [] = .ok ([], []) := by
  rw [convertShape.eq_def]

theorem convertShape_cons_ok (key : String) (value : Zod)
    (rest : List (String × Zod)) (conv : PDraft) (u : Unwrapped)
    (props : List (String × PDraft)) (reqs : List String)
    (hc : convertZod value = .ok conv) (hu : unwrapSchema value = .ok u)
    (hr : convertShape rest = .ok (props, reqs)) :
    convertShape ((key, value) :: rest) =
      .ok ((key, conv) :: props,
        if u.required && !(conv.getDefault.isSome || u.defaultValue.isSome)
        then key :: reqs else reqs) := by
  rw [convertShape.eq_def]
  show (match convertZod value with
    | Except.error e => Except.error e
    | Except.ok converted =>
      match unwrapSchema value with
      | Except.error e => Except.error e
      | Except.ok unwrapped =>
        match convertShape rest with
        | Except.error e => Except.error e
        | Except.ok (props2, reqs2) =>
          Except.ok ((key, converted) :: props2,
            if unwrapped.required &&
                !(converted.getDefault.isSome || unwrapped.defaultValue.isSome)
            then key :: reqs2 else reqs2)) = _
  rw [hc, hu, hr]

theorem convert_status :
    convertZod (.zenum ["pending", "done"]) =
      .ok (.pstring (some ["pending", "done"]) none none none) := by
  have hi : convertInner (.zenum ["pending", "done"]) =
      .ok (.pstring (some ["pending", "done"]) none none none) := by
    rw [convertInner.eq_def]
  exact convertZod_eq_ok (.zenum ["pending", "done"])
    { inner := .zenum ["pending", "done"], defaultValue := none,
      required := true } _ rfl hi

theorem convert_choice :
    convertZod (.zunion [.zliteral (.n 1), .zliteral (.n 2)]) =
      .ok (.pnumber (some [1, 2]) none none false none) := by
  have hi : convertInner (.zunion [.zliteral (.n 1), .zliteral (.n 2)]) =
      .ok (.pnumber (some [1, 2]) none none false none) := by
    rw [convertInner.eq_def]
    rfl
  exact convertZod_eq_ok (.zunion [.zliteral (.n 1), .zliteral (.n 2)])
    { inner := .zunion [.zliteral (.n 1), .zliteral (.n 2)],
      defaultValue := none, required := true } _ rfl hi

theorem convert_maybe :
    convertZod (.zoptional (.zstring [])) =
      .ok (.pstring none none none none) := by
  have hi : convertInner (.zstring []) = .ok (.pstring none none none none) := by
    rw [convertInner.eq_def]
    rfl
  exact convertZod_eq_ok (.zoptional (.zstring []))
    { inner := .zstring [], defaultValue := none, required := false } _ rfl hi

theorem convert_flag :
    convertZod (.zliteral (.b true)) = .ok (.pboolean (some (.b true))) := by
  have hi : convertInner (.zliteral (.b true)) =
      .ok (.pboolean (some (.b true))) := by
    rw [convertInner.eq_def]
  exact convertZod_eq_ok (.zliteral (.b true))
    { inner := .zliteral (.b true), defaultValue := none, required := true }
    _ rfl hi

theorem convertShape_workflowTestShape :
    convertShape workflowTestShape = .ok (expectedProps, ["status", "choice"]) := by
  have s3 : convertShape [("flag", Zod.zliteral (.b true))] =
      .ok ([("flag", PDraft.pboolean (some (.b true)))], []) := by
    rw [convertShape_cons_ok "flag" _ _ _
      { inner := .zliteral (.b true), defaultValue := none, required := true }
      _ _ convert_flag rfl convertShape_nil_eq]
    rfl
  have s2 : convertShape
      [("maybe", Zod.zoptional (.zstring [])), ("flag", Zod.zliteral (.b true))] =
      .ok ([("maybe", PDraft.pstring none none none none),
            ("flag", PDraft.pboolean (some (.b true)))], []) := by
    rw [convertShape_cons_ok "maybe" _ _ _
      { inner := .zstring [], defaultValue := none, required := false }
      _ _ convert_maybe rfl s3]
    rfl
  have s1 : convertShape
      [("choice", Zod.zunion [.zliteral (.n 1), .zliteral (.n 2)]),
       ("maybe", Zod.zoptional (.zstring [])),
       ("flag", Zod.zliteral (.b true))] =
      .ok ([("choice", PDraft.pnumber (some [1, 2]) none none false none),
            ("maybe", PDraft.pstring none none none none),
            ("flag", PDraft.pboolean (some (.b true)))], ["choice"]) := by
    rw [convertShape_cons_ok "choice" _ _ _
      { inner := .zunion [.zliteral (.n 1), .zliteral (.n 2)],
        defaultValue := none, required := true }
      _ _ convert_choice rfl s2]
    rfl
  show convertShape (("status", Zod.zenum ["pending", "done"]) :: _) = _
  rw [convertShape_cons_ok "status" _ _ _
    { inner := .zenum ["pending", "done"], defaultValue := none, required := true }
    _ _ convert_status rfl s1]
  rfl

theorem convert_workflowTestShape :
    convertZod (.zobject workflowTestShape) =
      .ok (.pobject expectedProps (some ["status", "choice"]) none) := by
  exact convertZod_eq_ok (.zobject workflowTestShape)
    { inner := .zobject workflowTestShape, defaultValue := none,
      required := true } _ rfl
    (convertInner_object_ok workflowTestShape expectedProps
      ["status", "choice"] convertShape_workflowTestShape)

theorem zod_object_required_iff_witness :
    ∃ u conv,
      unwrapSchema (Zod.zliteral (JVal.b true)) = .ok u ∧
      convertZod (Zod.zliteral (JVal.b true)) = .ok conv ∧
      expectedProps.lookup "flag" = some conv ∧
      ("flag" ∈ ["status", "choice"] ↔ (u.required = true ∧
        conv.getDefault = none ∧ u.defaultValue = none)) ∧
      (∀ v, u.defaultValue = some v → conv.getDefault = some v) := by
  have h := zod_object_required_iff workflowTestShape expectedProps
    (some ["status", "choice"]) none convert_workflowTestShape
    (by simp [workflowTestShape])
  simpa using h.2 "flag" (Zod.zliteral (JVal.b true))
    (by simp [workflowTestShape])

end AgentWorkflow
